import Mathlib

/-!
Verification of the patient-record / summary-merge core of the Hx-Summariser
single-page application (source: `index.tsx`, newest variant).

The TypeScript source is shallowly embedded: JavaScript values produced by
`JSON.parse` are modelled by the inductive `Json`; JS objects are ordered
association lists of fields; React state updates become pure functions on an
explicit `AppState`; code that can throw is modelled with `Option`.
-/

namespace HxSummariser

/-- Model of a JavaScript value as produced by `JSON.parse`.  Numbers are
modelled as integers (no claim in this development depends on non-integral
numerics). -/
inductive Json where
  | null
  | bool (b : Bool)
  | num (n : Int)
  | str (s : String)
  | arr (elems : List Json)
  | obj (fields : List (String × Json))

/-- A parsed JSON object: an ordered list of key/value fields, as JS keeps
object properties in insertion order. -/
def RawObj := List (String × Json)

/-- JS property read `o[k]`: first field with the given key, `none` models
`undefined`. -/
def getField (o : RawObj) (k : String) : Option Json :=
  match o with
  | [] => none
  | (k', v) :: rest => if k' = k then some v else getField rest k

/-- JS property write `o[k] = v`: overwrite the existing key in place, or
append the key at the end when absent. -/
def setField (o : RawObj) (k : String) (v : Json) : RawObj :=
  match o with
  | [] => [(k, v)]
  | (k', v') :: rest => if k' = k then (k, v) :: rest else (k', v') :: setField rest k v

/-- Character-list test used to model `String.prototype.startsWith` at one
position. -/
def startsWithChars : List Char → List Char → Bool
  | [], _ => true
  | _ :: _, [] => false
  | p :: ps, c :: cs => p == c && startsWithChars ps cs

/-- Character-list test used to model `String.prototype.includes`: does `pat`
occur contiguously inside the second list? -/
def containsChars (pat : List Char) : List Char → Bool
  | [] => startsWithChars pat []
  | c :: rest => startsWithChars pat (c :: rest) || containsChars pat rest

/-- Model of `s.toLowerCase().includes(pat)` (ASCII lowering, which covers
every string constant in the source). -/
def lowerIncludes (s pat : String) : Bool :=
  containsChars pat.toList (s.toList.map Char.toLower)

/-- The object key of the pending-tasks list (source interface
`StructuredResponse`). -/
def PENDING_KEY : String := "Pending Tasks and action Plan"

/-- The fixed safety-netting sentence appended by `handleSubmit`
(source line 442). -/
def SAFETY_NETTING_ADVICE : String :=
  "If symptoms worsen, or if new symptoms develop, please seek urgent medical advice by calling 111, your GP surgery, or 999 in an emergency."

/-- The filter predicate of source line 450:
`item.toLowerCase().includes(“symptoms worsen”) || item.toLowerCase().includes(“999”)`. -/
def containsTrigger (item : String) : Bool :=
  lowerIncludes item "symptoms worsen" || lowerIncludes item "999"

/-- The safety-net injection of source lines 449-453, restricted to a list of
pending-task strings: drop every item containing a trigger substring, then
append the canonical advice. -/
def injectSafetyNet (tasks : List String) : List String :=
  tasks.filter (fun item => !(containsTrigger item)) ++ [SAFETY_NETTING_ADVICE]

/-- Source lines 445-447: if the pending-tasks field is absent, `null`, or not
an array (`!x || !Array.isArray(x)`), replace it with the empty array.  An
array is always truthy in JS, so the truthiness test only matters for
non-array values, all of which are replaced. -/
def repairPending : Option Json → List Json
  | some (Json.arr xs) => xs
  | _ => []

/-- Source lines 449-451: `Array.prototype.filter` over the pending items with
the trigger predicate.  `item.toLowerCase()` throws a `TypeError` when `item`
is not a string; a throw aborts the whole submission, modelled by `none`. -/
def filterTriggers : List Json → Option (List Json)
  | [] => some []
  | Json.str s :: rest =>
      match filterTriggers rest with
      | none => none
      | some kept => some (if containsTrigger s then kept else Json.str s :: kept)
  | _ :: _ => none

/-- The whole deterministic post-processing block of source lines 441-454 on a
parsed response object: repair the pending field, filter the trigger items,
append the advice, and write the field back. -/
def processResponse (o : RawObj) : Option RawObj :=
  match filterTriggers (repairPending (getField o PENDING_KEY)) with
  | none => none
  | some kept => some (setField o PENDING_KEY (Json.arr (kept ++ [Json.str SAFETY_NETTING_ADVICE])))

theorem advice_contains_trigger : containsTrigger SAFETY_NETTING_ADVICE = true := by decide

/-! ## Data model (source interfaces `SummaryRecord` and `Patient`) -/

/-- A stored summary record (source lines 25-28).  The summary is kept as the
raw parsed-and-post-processed response object, exactly as `handleSubmit`
stores `newSummaryData` without any shape validation. -/
structure SummaryRecord where
  summary : RawObj
  timestamp : String

/-- A patient record (source lines 31-37). -/
structure Patient where
  id : String
  name : String
  dob : String
  nhsNumber : String
  summaries : List SummaryRecord

/-- The identity fields handled by the patient-edit modal
(the `Omit` of `Patient` without `summaries`, source line 253). -/
structure PatientDetails where
  id : String
  name : String
  dob : String
  nhsNumber : String

/-- The response schemas, reduced to the property and required-field name
lists (the per-property type is `ARRAY` of `STRING` for every field). -/
structure ResponseSchema where
  properties : List String
  required : List String

/-- Property names of `baseSchema` (source lines 47-63). -/
def basePropertyNames : List String :=
  ["Acute Issues", "Pending Tasks and action Plan", "Past medical history"]

/-- `newSummaryResponseSchema` (source lines 65-69). -/
def newSummaryResponseSchema : ResponseSchema :=
  { properties := basePropertyNames, required := basePropertyNames }

/-- `updateSummaryResponseSchema` (source lines 71-82). -/
def updateSummaryResponseSchema : ResponseSchema :=
  { properties := basePropertyNames ++ ["Key Changes"]
    required := ["Acute Issues", "Pending Tasks and action Plan", "Past medical history", "Key Changes"] }

/-! ## Application state and event handlers -/

/-- The slice of React component state that the record store, merge engine and
view selection live in.  Rendering-only state (loading flags, insights,
referral drafts, sidebar, auth, GDPR banner) is irrelevant to every claim and
omitted. -/
structure AppState where
  patients : List Patient
  selectedPatientId : Option String
  viewingSummaryIndex : Nat
  newPatientName : String
  prompt : String
  files : List String
  error : Option String

/-- Model of JS `Array.prototype.find` by id, as in
`patients.find(p => p.id === selectedPatientId)`. -/
def findPatient : List Patient → String → Option Patient
  | [], _ => none
  | p :: rest, pid => if p.id = pid then some p else findPatient rest pid

/-- `selectedPatient` memo (source lines 342-344). -/
def selectedPatient (st : AppState) : Option Patient :=
  match st.selectedPatientId with
  | none => none
  | some pid => findPatient st.patients pid

/-- `currentSummary` memo (source lines 346-351): the record at the viewed
index of the selected patient, or `null` when either is missing. -/
def currentSummary (st : AppState) : Option SummaryRecord :=
  match selectedPatient st with
  | none => none
  | some p => p.summaries.get? st.viewingSummaryIndex

/-- Model of JS `String.prototype.trim` (ASCII whitespace). -/
def jsTrim (s : String) : String :=
  ⟨((s.toList.dropWhile Char.isWhitespace).reverse.dropWhile Char.isWhitespace).reverse⟩

/-- The generic failure message set by the `catch` of `handleSubmit`
(source line 490). -/
def genericError : String :=
  "Sorry, something went wrong. The response might not be in the correct format."

/-- The outcome of the awaited service round-trip inside `handleSubmit`, seen
from the first statement that can observe it.  `thrown` covers a
network/quota failure of `generateContent` as well as `JSON.parse` throwing
on `result.text`; `parsed o` means `JSON.parse` returned the object `o`. -/
inductive ServiceOutcome where
  | thrown
  | parsed (o : RawObj)

/-- The response half of `handleSubmit` (source lines 438-493), applied to the
state as it stands after `setError(null)`: parse/throw handling, the
safety-netting block, record construction, and the append-or-create commit.
Exceptions land in the `catch`, which only sets the error message. -/
def commitResponse (st : AppState) (newId ts : String) : ServiceOutcome → AppState
  | ServiceOutcome.thrown => { st with error := some genericError }
  | ServiceOutcome.parsed o =>
    match processResponse o with
    | none => { st with error := some genericError }
    | some processed =>
      match st.selectedPatientId with
      | some pid =>
        { st with
            patients := st.patients.map fun p =>
              if p.id = pid then
                { p with summaries :=
                    ({ summary := processed, timestamp := ts } : SummaryRecord) :: p.summaries }
              else p
            viewingSummaryIndex := 0
            prompt := ""
            files := [] }
      | none =>
        { st with
            patients :=
              ({ id := newId, name := jsTrim st.newPatientName, dob := "", nhsNumber := ""
                 summaries := [{ summary := processed, timestamp := ts }] } : Patient)
                :: st.patients
            selectedPatientId := some newId
            viewingSummaryIndex := 0
            newPatientName := ""
            prompt := ""
            files := [] }

/-- `handleSubmit` (source lines 371-494) as a pure function of the
submission-time state, the fresh patient id (`Date.now().toString()`), the
capture timestamp and the service outcome: the two validation guards, then
`setError(null)` and the committed response. -/
def handleSubmit (st : AppState) (newId ts : String) (outcome : ServiceOutcome) : AppState :=
  if jsTrim st.prompt = "" ∧ st.files = [] then st
  else if st.selectedPatientId = none ∧ jsTrim st.newPatientName = "" then
    { st with error := some "Please enter a patient name." }
  else commitResponse { st with error := none } newId ts outcome

/-- `handleSelectPatient` (source lines 748-755). -/
def handleSelectPatient (st : AppState) (pid : String) : AppState :=
  { st with selectedPatientId := some pid, viewingSummaryIndex := 0
            error := none, prompt := "", files := [] }

/-- The confirmed branch of `handleDeletePatient` (source lines 757-764):
filter the patient out, and clear the selection when it pointed at the
deleted id. -/
def handleDeletePatientConfirmed (st : AppState) (pid : String) : AppState :=
  let st := { st with patients := st.patients.filter fun p => !(p.id == pid) }
  if st.selectedPatientId = some pid then { st with selectedPatientId := none } else st

/-- `handleCreateNew` (source lines 766-774). -/
def handleCreateNew (st : AppState) : AppState :=
  { st with selectedPatientId := none, viewingSummaryIndex := 0
            newPatientName := "", error := none, prompt := "", files := [] }

/-- `handleSavePatientDetails` (source lines 811-821): merge the edited
identity fields into the matching patient, keeping its summaries. -/
def handleSavePatientDetails (st : AppState) (d : PatientDetails) : AppState :=
  { st with
      patients := st.patients.map fun p =>
        if p.id = d.id then
          { id := d.id, name := d.name, dob := d.dob, nhsNumber := d.nhsNumber
            summaries := p.summaries }
        else p }

/-- The confirmed branch of `handleClearAllData` (source lines 828-836). -/
def handleClearAllData (st : AppState) : AppState :=
  { st with patients := [], selectedPatientId := none }

/-- The user-driven operations that can mutate the modelled state. -/
inductive Op where
  | submit (newId ts : String) (outcome : ServiceOutcome)
  | selectPatient (pid : String)
  | deletePatient (pid : String)
  | createNew
  | saveDetails (d : PatientDetails)
  | clearAll
  | setViewIndex (i : Nat)
  | setPromptText (s : String)
  | setNewName (s : String)
  | setFiles (fs : List String)

/-- One step of the event loop. -/
def applyOp (op : Op) (st : AppState) : AppState :=
  match op with
  | Op.submit newId ts outcome => handleSubmit st newId ts outcome
  | Op.selectPatient pid => handleSelectPatient st pid
  | Op.deletePatient pid => handleDeletePatientConfirmed st pid
  | Op.createNew => handleCreateNew st
  | Op.saveDetails d => handleSavePatientDetails st d
  | Op.clearAll => handleClearAllData st
  | Op.setViewIndex i => { st with viewingSummaryIndex := i }
  | Op.setPromptText s => { st with prompt := s }
  | Op.setNewName s => { st with newPatientName := s }
  | Op.setFiles fs => { st with files := fs }

/-- Run a sequence of operations. -/
def applyOps (ops : List Op) (st : AppState) : AppState :=
  ops.foldl (fun s op => applyOp op s) st

/-- The state a fresh session starts from when nothing restores from storage. -/
def initialState : AppState :=
  { patients := [], selectedPatientId := none, viewingSummaryIndex := 0
    newPatientName := "", prompt := "", files := [], error := none }

/-! ## Request construction (merge-engine mode, prompt, schema) -/

/-- One hexadecimal digit in lower case. -/
def hexDigit (n : Nat) : Char :=
  if n < 10 then Char.ofNat (48 + n) else Char.ofNat (87 + n)

/-- JSON string escaping as performed by `JSON.stringify`. -/
def escapeJsonChar (c : Char) : String :=
  if c = '"' then "\\\""
  else if c = '\\' then "\\\\"
  else if c = '\n' then "\\n"
  else if c = '\r' then "\\r"
  else if c = '\t' then "\\t"
  else if c.toNat = 8 then "\\b"
  else if c.toNat = 12 then "\\f"
  else if c.toNat < 32 then
    "\\u00" ++ String.singleton (hexDigit (c.toNat / 16)) ++ String.singleton (hexDigit (c.toNat % 16))
  else String.singleton c

/-- A JSON string literal for `s`. -/
def encodeJsonStr (s : String) : String :=
  "\"" ++ String.join (s.toList.map escapeJsonChar) ++ "\""

mutual

/-- Model of `JSON.stringify` on a JSON value (external library function; the
source calls it at lines 270, 413, 513, 546, 581). -/
def stringifyJson : Json → String
  | Json.null => "null"
  | Json.bool b => if b then "true" else "false"
  | Json.num n => toString n
  | Json.str s => encodeJsonStr s
  | Json.arr xs => "[" ++ stringifyArr xs ++ "]"
  | Json.obj fs => "\x7b" ++ stringifyObj fs ++ "\x7d"

/-- Comma-separated serialization of array elements. -/
def stringifyArr : List Json → String
  | [] => ""
  | [j] => stringifyJson j
  | j :: rest => stringifyJson j ++ "," ++ stringifyArr rest

/-- Comma-separated serialization of object fields. -/
def stringifyObj : List (String × Json) → String
  | [] => ""
  | [(k, v)] => encodeJsonStr k ++ ":" ++ stringifyJson v
  | (k, v) :: rest => encodeJsonStr k ++ ":" ++ stringifyJson v ++ "," ++ stringifyObj rest

end

/-- The two merge-engine modes. -/
inductive Mode where
  | create
  | update
deriving DecidableEq

/-- Mode selection of source lines 402-425: UPDATE exactly when
`patientToUpdate && latestExistingSummary` is truthy, i.e. a selected patient
is found and its `summaries[0]` exists. -/
def requestMode (st : AppState) : Mode :=
  match selectedPatient st with
  | some p =>
      match p.summaries with
      | _ :: _ => Mode.update
      | [] => Mode.create
  | none => Mode.create

/-- The summary history of the submission target: the records of the selected
patient when a patient is selected, otherwise (brand-new patient) none. -/
def targetSummaries (st : AppState) : List SummaryRecord :=
  match selectedPatient st with
  | some p => p.summaries
  | none => []

/-- The part of the UPDATE prompt template (source lines 406-413) before the
interpolated `JSON.stringify(latestExistingSummary.summary)`. -/
def UPDATE_PROMPT_HEAD : String :=
  "Act as a clinical assistant responsible for patient records. A patient has presented with new acute concerns. Based on these and their previous clinical summary, provide an updated summary.\n\nCrucially, within the \"Pending Tasks and action Plan\" section, you must explicitly document a detailed treatment plan for the new acute concerns, formatted clearly for inclusion in an Electronic Health Record (EHR). This plan must be actionable and follow standard UK clinical practice (NICE/CKS guidelines).\n\nThe plan for the new concerns should include specific management instructions (e.g., \"Started on Amoxicillin 500mg three times daily,\" \"Prescribed Lactulose 10ml twice daily\"). Also, generate a long-term management plan and identify key changes from the previous summary.\n\nPREVIOUS SUMMARY:\n"

/-- The part of the UPDATE prompt template between the embedded previous
summary and the interpolated new-concerns text (source lines 413-416). -/
def UPDATE_PROMPT_MID : String := "\n\nNEW ACUTE CONCERNS:\n"

/-- The CREATE prompt template (source lines 419-424) around the interpolated
user text. -/
def CREATE_PROMPT_HEAD : String :=
  "Act as a clinical assistant responsible for patient records. Create a concise, structured clinical summary from the information provided. For any acute issues identified, you must explicitly document a detailed treatment plan within the \"Pending Tasks and action Plan\" section. This plan must be formatted clearly for inclusion in an Electronic Health Record (EHR), be actionable, and follow standard UK clinical practice (NICE/CKS guidelines).\n\nThe plan should include specific management instructions (e.g., \"Started on Amoxicillin 500mg three times daily,\" \"Prescribed Lactulose 10ml twice daily\") and a suggested long-term management plan.\n\nPATIENT INFORMATION:\n"

/-- Construction of `finalPrompt` and `schemaForRequest` (source lines
400-425) from the submission-time state. -/
def buildRequest (st : AppState) : String × ResponseSchema :=
  match selectedPatient st with
  | some p =>
      match p.summaries with
      | latest :: _ =>
          (UPDATE_PROMPT_HEAD ++ stringifyJson (Json.obj latest.summary)
             ++ UPDATE_PROMPT_MID ++ st.prompt,
           updateSummaryResponseSchema)
      | [] => (CREATE_PROMPT_HEAD ++ st.prompt, newSummaryResponseSchema)
  | none => (CREATE_PROMPT_HEAD ++ st.prompt, newSummaryResponseSchema)

/-! ## Persistence (autosave effect, source lines 269-271, and the
`patients` initializer, source lines 235-243)

The browser pair `JSON.stringify` / `JSON.parse` is external to the
repository and is modelled at the level of JSON values: `savePatients` is the
JSON value the autosave effect writes (as text) under the `patientData` key,
and a successful `JSON.parse` of that text yields the same JSON value.  The
initializer performs no shape validation — it casts the parsed value to
`Patient[]` — so the decoder below is the structural reading of that cast on
data of the persisted shape; its `none` branch (a parseable blob of some
other shape) is exercised by no claim. -/

/-- The JSON value of a stored summary record, with object-literal key order
`summary`, `timestamp` (source lines 456-459). -/
def encodeRecord (r : SummaryRecord) : Json :=
  Json.obj [("summary", Json.obj r.summary), ("timestamp", Json.str r.timestamp)]

/-- The JSON value of a patient, with object-literal key order from source
lines 474-480. -/
def encodePatient (p : Patient) : Json :=
  Json.obj [("id", Json.str p.id), ("name", Json.str p.name), ("dob", Json.str p.dob),
            ("nhsNumber", Json.str p.nhsNumber),
            ("summaries", Json.arr (p.summaries.map encodeRecord))]

/-- The JSON value written by the autosave effect
`localStorage.setItem` under the `patientData` key. -/
def savePatients (ps : List Patient) : Json :=
  Json.arr (ps.map encodePatient)

/-- Structural reading of a stored summary record. -/
def decodeRecord : Json → Option SummaryRecord
  | Json.obj [("summary", Json.obj s), ("timestamp", Json.str t)] =>
      some { summary := s, timestamp := t }
  | _ => none

/-- Structural reading of a list of stored summary records. -/
def decodeRecords : List Json → Option (List SummaryRecord)
  | [] => some []
  | j :: rest =>
      match decodeRecord j, decodeRecords rest with
      | some r, some rs => some (r :: rs)
      | _, _ => none

/-- Structural reading of a stored patient. -/
def decodePatient : Json → Option Patient
  | Json.obj [("id", Json.str i), ("name", Json.str n), ("dob", Json.str d),
              ("nhsNumber", Json.str h), ("summaries", Json.arr ss)] =>
      match decodeRecords ss with
      | some rs => some { id := i, name := n, dob := d, nhsNumber := h, summaries := rs }
      | none => none
  | _ => none

/-- Structural reading of a list of stored patients. -/
def decodePatientList : List Json → Option (List Patient)
  | [] => some []
  | j :: rest =>
      match decodePatient j, decodePatientList rest with
      | some p, some ps => some (p :: ps)
      | _, _ => none

/-- Structural reading of the whole persisted blob. -/
def decodePatients : Json → Option (List Patient)
  | Json.arr xs => decodePatientList xs
  | _ => none

/-- What the `patients` initializer (source lines 235-243) can observe:
`localStorage.getItem` throws (storage access error), returns `null`
(nothing persisted), returns the empty string (falsy, skipped without
parsing), or returns a non-empty blob on which `JSON.parse` either throws or
yields a JSON value. -/
inductive StorageRead where
  | accessError
  | absent
  | emptyString
  | parsed (r : Except Unit Json)

/-- The `patients` initializer: every thrown error is caught and logged, a
missing or falsy blob is skipped, and only a successfully parsed blob is used
(cast unchecked to `Patient[]`; `getD` totalizes the cast for blobs of a
shape the application never writes). -/
def load : StorageRead → List Patient
  | StorageRead.accessError => []
  | StorageRead.absent => []
  | StorageRead.emptyString => []
  | StorageRead.parsed (Except.error _) => []
  | StorageRead.parsed (Except.ok j) => (decodePatients j).getD []

/-- The reads on which the initializer recovers instead of using a blob. -/
def readFailed : StorageRead → Bool
  | StorageRead.accessError => true
  | StorageRead.absent => true
  | StorageRead.emptyString => true
  | StorageRead.parsed (Except.error _) => true
  | StorageRead.parsed (Except.ok _) => false

/-- A patient list is reachable when some operation sequence starting from the
empty store produces it. -/
def ReachableStore (ps : List Patient) : Prop :=
  ∃ ops : List Op, (applyOps ops initialState).patients = ps

/-- Whether a JSON value is a string. -/
def isStrJson : Json → Bool
  | Json.str _ => true
  | _ => false

/-! ## Helper lemmas -/

theorem getField_setField (o : RawObj) (k : String) (v : Json) :
    getField (setField o k v) k = some v := by
  induction o with
  | nil => simp [setField, getField]
  | cons hd tl ih =>
    obtain ⟨k', v'⟩ := hd
    by_cases h : k' = k
    · simp [setField, getField, h]
    · simp [setField, getField, h, ih]

theorem filterTriggers_shape (js : List Json) (ts : List Json)
    (h : filterTriggers js = some ts) :
    ∃ ss : List String, ts = ss.map Json.str ∧ ∀ s ∈ ss, containsTrigger s = false := by
  induction js generalizing ts with
  | nil =>
    simp only [filterTriggers, Option.some.injEq] at h
    exact ⟨[], by simp [← h]⟩
  | cons j rest ih =>
    cases j with
    | str s =>
      simp only [filterTriggers] at h
      cases hrec : filterTriggers rest with
      | none => rw [hrec] at h; exact absurd h (by simp)
      | some kept =>
        rw [hrec] at h
        simp only [Option.some.injEq] at h
        obtain ⟨ss, hss, hcl⟩ := ih kept hrec
        by_cases htr : containsTrigger s
        · exact ⟨ss, by simpa [htr, hss] using h.symm, hcl⟩
        · refine ⟨s :: ss, ?_, ?_⟩
          · simp [← h, htr, hss]
          · intro x hx
            rcases List.mem_cons.mp hx with rfl | hx
            · simpa using htr
            · exact hcl x hx
    | null => exact absurd h (by simp [filterTriggers])
    | bool b => exact absurd h (by simp [filterTriggers])
    | num n => exact absurd h (by simp [filterTriggers])
    | arr xs => exact absurd h (by simp [filterTriggers])
    | obj fs => exact absurd h (by simp [filterTriggers])

theorem filterTriggers_none_iff (js : List Json) :
    filterTriggers js = none ↔ ∃ j ∈ js, isStrJson j = false := by
  induction js with
  | nil => simp [filterTriggers]
  | cons j rest ih =>
    cases j with
    | str s =>
      simp only [filterTriggers]
      cases hrec : filterTriggers rest with
      | none =>
        constructor
        · intro _
          obtain ⟨j', hj', hns⟩ := ih.mp hrec
          exact ⟨j', List.mem_cons_of_mem _ hj', hns⟩
        · intro _
          rfl
      | some kept =>
        constructor
        · intro h; simp at h
        · rintro ⟨j', hj', hns⟩
          rcases List.mem_cons.mp hj' with rfl | hj'
          · simp [isStrJson] at hns
          · have hnone := ih.mpr ⟨j', hj', hns⟩
            rw [hnone] at hrec
            cases hrec
    | null => simp [filterTriggers, isStrJson]
    | bool b => simp [filterTriggers, isStrJson]
    | num n => simp [filterTriggers, isStrJson]
    | arr xs => simp [filterTriggers, isStrJson]
    | obj fs => simp [filterTriggers, isStrJson]

theorem filter_notTrigger_idem (l : List String) :
    (l.filter fun item => !(containsTrigger item)).filter (fun item => !(containsTrigger item))
      = l.filter fun item => !(containsTrigger item) := by
  induction l with
  | nil => rfl
  | cons a t ih =>
    by_cases h : containsTrigger a
    · simp [List.filter_cons, h, ih]
    · simp [List.filter_cons, h, ih]

theorem findPatient_cons (q : Patient) (rest : List Patient) (pid : String) :
    findPatient (q :: rest) pid = if q.id = pid then some q else findPatient rest pid := rfl

theorem findPatient_mem_id (ps : List Patient) (pid : String) (p : Patient)
    (h : findPatient ps pid = some p) : p ∈ ps ∧ p.id = pid := by
  induction ps with
  | nil => exact absurd h (by simp [findPatient])
  | cons q rest ih =>
    by_cases hq : q.id = pid
    · rw [show findPatient (q :: rest) pid = if q.id = pid then some q else findPatient rest pid from rfl,
         if_pos hq] at h
      injection h with h
      subst h
      exact ⟨List.mem_cons_self _ _, hq⟩
    · rw [show findPatient (q :: rest) pid = if q.id = pid then some q else findPatient rest pid from rfl,
         if_neg hq] at h
      obtain ⟨hm, hid⟩ := ih h
      exact ⟨List.mem_cons_of_mem _ hm, hid⟩

theorem findPatient_map (f : Patient → Patient) (hf : ∀ q, (f q).id = q.id)
    (ps : List Patient) (pid : String) :
    findPatient (ps.map f) pid = (findPatient ps pid).map f := by
  induction ps with
  | nil => rfl
  | cons q rest ih =>
    by_cases hq : q.id = pid
    · simp [findPatient, hf, hq]
    · simp [findPatient, hf, hq, ih]

theorem findPatient_filter_ne (ps : List Patient) (pid pid' : String) (h : pid ≠ pid') :
    findPatient (ps.filter fun p => !(p.id == pid')) pid = findPatient ps pid := by
  induction ps with
  | nil => rfl
  | cons q rest ih =>
    by_cases hq' : q.id = pid'
    · have hq : q.id ≠ pid := by
        rw [hq']
        exact fun hc => h hc.symm
      have hdrop : (q :: rest).filter (fun p => !(p.id == pid')) =
          rest.filter fun p => !(p.id == pid') := by
        rw [List.filter_cons, if_neg (by simp [hq'])]
      rw [hdrop, ih, findPatient_cons, if_neg hq]
    · have hkeep : (q :: rest).filter (fun p => !(p.id == pid')) =
          q :: rest.filter fun p => !(p.id == pid') := by
        rw [List.filter_cons, if_pos (by simp [hq'])]
      rw [hkeep, findPatient_cons, findPatient_cons, ih]

theorem findPatient_filter_self (ps : List Patient) (pid : String) :
    findPatient (ps.filter fun p => !(p.id == pid)) pid = none := by
  induction ps with
  | nil => rfl
  | cons q rest ih =>
    by_cases hq : q.id = pid
    · have hdrop : (q :: rest).filter (fun p => !(p.id == pid)) =
          rest.filter fun p => !(p.id == pid) := by
        rw [List.filter_cons, if_neg (by simp [hq])]
      rw [hdrop, ih]
    · have hkeep : (q :: rest).filter (fun p => !(p.id == pid)) =
          q :: rest.filter fun p => !(p.id == pid) := by
        rw [List.filter_cons, if_pos (by simp [hq])]
      rw [hkeep, findPatient_cons, if_neg hq, ih]

theorem decodeRecord_encodeRecord (r : SummaryRecord) :
    decodeRecord (encodeRecord r) = some r := by
  cases r; rfl

theorem decodeRecords_map_encode (rs : List SummaryRecord) :
    decodeRecords (rs.map encodeRecord) = some rs := by
  induction rs with
  | nil => rfl
  | cons r rest ih => simp [decodeRecords, decodeRecord_encodeRecord, ih]

theorem decodePatient_encodePatient (p : Patient) :
    decodePatient (encodePatient p) = some p := by
  cases p with
  | mk i n d h ss => simp [encodePatient, decodePatient, decodeRecords_map_encode]

theorem decodePatientList_map_encode (ps : List Patient) :
    decodePatientList (ps.map encodePatient) = some ps := by
  induction ps with
  | nil => rfl
  | cons p rest ih => simp [decodePatientList, decodePatient_encodePatient, ih]

theorem decodePatients_savePatients (ps : List Patient) :
    decodePatients (savePatients ps) = some ps := by
  simp [savePatients, decodePatients, decodePatientList_map_encode]

/-! ## Claim theorems -/

/-- Claim C2 (confirmed): for every parsed service response that the
post-processing step accepts, the resulting pending-tasks field is a list of
strings in which the canonical safety-netting sentence occurs exactly once,
is the last element, and every other surviving item is free of the two
case-insensitive trigger substrings. -/
theorem safetyNet_unique_last (o r : RawObj) (h : processResponse o = some r) :
    ∃ ss : List String,
      getField r PENDING_KEY = some (Json.arr (ss.map Json.str))
      ∧ ss.count SAFETY_NETTING_ADVICE = 1
      ∧ ss.getLast? = some SAFETY_NETTING_ADVICE
      ∧ ∀ s ∈ ss, s ≠ SAFETY_NETTING_ADVICE → containsTrigger s = false := by
  unfold processResponse at h
  cases hft : filterTriggers (repairPending (getField o PENDING_KEY)) with
  | none => rw [hft] at h; cases h
  | some kept =>
    rw [hft] at h
    injection h with h
    obtain ⟨ss, hss, hcl⟩ := filterTriggers_shape _ _ hft
    refine ⟨ss ++ [SAFETY_NETTING_ADVICE], ?_, ?_, ?_, ?_⟩
    · rw [← h, getField_setField, hss, List.map_append]
      rfl
    · have hn : ss.count SAFETY_NETTING_ADVICE = 0 := by
        rw [List.count_eq_zero]
        intro hmem
        have hfalse := hcl _ hmem
        rw [advice_contains_trigger] at hfalse
        cases hfalse
      rw [List.count_append, hn]
      simp
    · simp
    · intro s hs hne
      rcases List.mem_append.mp hs with h1 | h1
      · exact hcl s h1
      · simp only [List.mem_singleton] at h1
        exact absurd h1 hne

/-- A response whose pending-tasks list already echoes the safety-netting
sentence, used as concrete input for the C2 witness. -/
def respWithEcho : RawObj :=
  [(PENDING_KEY, Json.arr [Json.str SAFETY_NETTING_ADVICE, Json.str "Chase bloods"])]

/-- The post-processed form of `respWithEcho`. -/
def processedEcho : RawObj :=
  [(PENDING_KEY, Json.arr [Json.str "Chase bloods", Json.str SAFETY_NETTING_ADVICE])]

/-- Witness for C2 at a concrete response in which the model echoed its own
worsening-symptom advice. -/
theorem safetyNet_unique_last_witness :
    ∃ ss : List String,
      getField processedEcho PENDING_KEY = some (Json.arr (ss.map Json.str))
      ∧ ss.count SAFETY_NETTING_ADVICE = 1
      ∧ ss.getLast? = some SAFETY_NETTING_ADVICE
      ∧ ∀ s ∈ ss, s ≠ SAFETY_NETTING_ADVICE → containsTrigger s = false :=
  safetyNet_unique_last respWithEcho processedEcho rfl

/-- Claim C3 (confirmed): the safety-net injection — filter out trigger items,
then append the fixed advice — is idempotent on every list of pending-task
strings. -/
theorem safetyNet_idempotent (tasks : List String) :
    injectSafetyNet (injectSafetyNet tasks) = injectSafetyNet tasks := by
  unfold injectSafetyNet
  rw [List.filter_append, filter_notTrigger_idem]
  have hadv : [SAFETY_NETTING_ADVICE].filter (fun item => !(containsTrigger item)) = [] := by
    simp [advice_contains_trigger]
  rw [hadv, List.append_nil]

/-- Claim C4 (confirmed): CREATE mode is selected if and only if the
submission target — the selected patient, or a brand-new one when none is
selected — has no existing summary records. -/
theorem mode_create_iff_no_summaries (st : AppState) :
    requestMode st = Mode.create ↔ targetSummaries st = [] := by
  unfold requestMode targetSummaries
  cases hsel : selectedPatient st with
  | none => simp
  | some p =>
    cases hs : p.summaries with
    | nil => simp [hs]
    | cons a t => simp [hs]

/-- Claim C5 (confirmed): in UPDATE mode the request prompt embeds the
serialization of the summary record of the target patient at index 0 as the
previous state, and the request schema requires the key-changes list on top
of the three base list fields. -/
theorem update_request_embeds_latest (st : AppState) (p : Patient)
    (latest : SummaryRecord) (rest : List SummaryRecord)
    (hsel : selectedPatient st = some p) (hsum : p.summaries = latest :: rest) :
    requestMode st = Mode.update
    ∧ buildRequest st =
        (UPDATE_PROMPT_HEAD ++ stringifyJson (Json.obj latest.summary)
           ++ UPDATE_PROMPT_MID ++ st.prompt,
         updateSummaryResponseSchema)
    ∧ updateSummaryResponseSchema.required =
        newSummaryResponseSchema.required ++ ["Key Changes"] := by
  refine ⟨?_, ?_, rfl⟩
  · unfold requestMode
    simp only [hsel, hsum]
  · unfold buildRequest
    simp only [hsel, hsum]

/-- A summary record used by the C5 and C6 witnesses. -/
def recW : SummaryRecord :=
  { summary := [("Acute Issues", Json.arr [Json.str "Cough"])], timestamp := "t1" }

/-- A patient with one summary, used by the C5 and C6 witnesses. -/
def patientW : Patient :=
  { id := "w1", name := "Wendy", dob := "", nhsNumber := "", summaries := [recW] }

/-- A state with `patientW` selected, used by the C5 witness. -/
def stW : AppState :=
  { patients := [patientW], selectedPatientId := some "w1", viewingSummaryIndex := 0
    newPatientName := "", prompt := "now confused", files := [], error := none }

/-- Witness for C5 at a concrete selected patient with one prior summary. -/
theorem update_request_embeds_latest_witness :
    requestMode stW = Mode.update
    ∧ buildRequest stW =
        (UPDATE_PROMPT_HEAD ++ stringifyJson (Json.obj recW.summary)
           ++ UPDATE_PROMPT_MID ++ stW.prompt,
         updateSummaryResponseSchema)
    ∧ updateSummaryResponseSchema.required =
        newSummaryResponseSchema.required ++ ["Key Changes"] :=
  update_request_embeds_latest stW patientW recW [] rfl rfl

/-- Freshness of the generated patient id for a submission: `Date.now()` is
assumed not to collide with an id already in the store.  Every other
operation needs nothing. -/
def freshFor : Op → AppState → Prop
  | Op.submit newId _ _, st => ∀ q ∈ st.patients, q.id ≠ newId
  | _, _ => True

/-- Claim C6 (confirmed): whatever operation runs, a patient present before
and after it keeps its summary history except possibly for one new record
prepended at index 0 — histories are never reordered, truncated or edited. -/
theorem summaries_append_only (st : AppState) (op : Op) (pid : String) (p p' : Patient)
    (hfresh : freshFor op st)
    (h1 : findPatient st.patients pid = some p)
    (h2 : findPatient (applyOp op st).patients pid = some p') :
    p'.summaries = p.summaries ∨ ∃ r, p'.summaries = r :: p.summaries := by
  have same_list : ∀ {l : List Patient}, l = st.patients →
      findPatient l pid = some p' → p'.summaries = p.summaries ∨ ∃ r, p'.summaries = r :: p.summaries := by
    intro l hl hf
    rw [hl, h1] at hf
    injection hf with hf
    exact Or.inl (by rw [← hf])
  cases op with
  | selectPatient pid' => exact same_list rfl h2
  | createNew => exact same_list rfl h2
  | saveDetails d =>
    have hmap : findPatient (st.patients.map fun q =>
        if q.id = d.id then
          { id := d.id, name := d.name, dob := d.dob, nhsNumber := d.nhsNumber
            summaries := q.summaries }
        else q) pid = some p' := h2
    rw [findPatient_map _ (fun q => by by_cases hq : q.id = d.id <;> simp [hq]), h1] at hmap
    injection hmap with hmap
    have hmap' : (if p.id = d.id then
        ({ id := d.id, name := d.name, dob := d.dob, nhsNumber := d.nhsNumber
           summaries := p.summaries } : Patient)
      else p) = p' := hmap
    by_cases hp : p.id = d.id
    · left
      rw [← hmap', if_pos hp]
    · left
      rw [← hmap', if_neg hp]
  | clearAll =>
    have hnone : findPatient ([] : List Patient) pid = some p' := h2
    cases hnone
  | setViewIndex i => exact same_list rfl h2
  | setPromptText s => exact same_list rfl h2
  | setNewName s => exact same_list rfl h2
  | setFiles fs => exact same_list rfl h2
  | deletePatient pid' =>
    by_cases hc : st.selectedPatientId = some pid'
    · by_cases hpid : pid = pid'
      · have hdel : findPatient (st.patients.filter fun q => !(q.id == pid')) pid = some p' := by
          have hx : (applyOp (Op.deletePatient pid') st).patients
              = st.patients.filter fun q => !(q.id == pid') := by
            simp only [applyOp, handleDeletePatientConfirmed]
            rw [if_pos hc]
          rw [hx] at h2
          exact h2
        rw [hpid, findPatient_filter_self] at hdel
        cases hdel
      · have hdel : findPatient (st.patients.filter fun q => !(q.id == pid')) pid = some p' := by
          have hx : (applyOp (Op.deletePatient pid') st).patients
              = st.patients.filter fun q => !(q.id == pid') := by
            simp only [applyOp, handleDeletePatientConfirmed]
            rw [if_pos hc]
          rw [hx] at h2
          exact h2
        rw [findPatient_filter_ne _ _ _ hpid, h1] at hdel
        injection hdel with hdel
        exact Or.inl (by rw [← hdel])
    · by_cases hpid : pid = pid'
      · have hdel : findPatient (st.patients.filter fun q => !(q.id == pid')) pid = some p' := by
          have hx : (applyOp (Op.deletePatient pid') st).patients
              = st.patients.filter fun q => !(q.id == pid') := by
            simp only [applyOp, handleDeletePatientConfirmed]
            rw [if_neg hc]
          rw [hx] at h2
          exact h2
        rw [hpid, findPatient_filter_self] at hdel
        cases hdel
      · have hdel : findPatient (st.patients.filter fun q => !(q.id == pid')) pid = some p' := by
          have hx : (applyOp (Op.deletePatient pid') st).patients
              = st.patients.filter fun q => !(q.id == pid') := by
            simp only [applyOp, handleDeletePatientConfirmed]
            rw [if_neg hc]
          rw [hx] at h2
          exact h2
        rw [findPatient_filter_ne _ _ _ hpid, h1] at hdel
        injection hdel with hdel
        exact Or.inl (by rw [← hdel])
  | submit newId ts outcome =>
    simp only [applyOp, handleSubmit] at h2
    by_cases g1 : jsTrim st.prompt = "" ∧ st.files = []
    · rw [if_pos g1] at h2
      exact same_list rfl h2
    · rw [if_neg g1] at h2
      by_cases g2 : st.selectedPatientId = none ∧ jsTrim st.newPatientName = ""
      · rw [if_pos g2] at h2
        exact same_list rfl h2
      · rw [if_neg g2] at h2
        cases outcome with
        | thrown => exact same_list rfl h2
        | parsed o =>
          simp only [commitResponse] at h2
          cases hpr : processResponse o with
          | none =>
            rw [hpr] at h2
            exact same_list rfl h2
          | some processed =>
            rw [hpr] at h2
            cases hselid : st.selectedPatientId with
            | some sel =>
              rw [show ({ st with error := none } : AppState).selectedPatientId
                    = st.selectedPatientId from rfl, hselid] at h2
              have hmap : findPatient (st.patients.map fun q =>
                  if q.id = sel then
                    { q with summaries :=
                        ({ summary := processed, timestamp := ts } : SummaryRecord) :: q.summaries }
                  else q) pid = some p' := h2
              rw [findPatient_map _ (fun q => by by_cases hq : q.id = sel <;> simp [hq]), h1] at hmap
              injection hmap with hmap
              have hmap' : (if p.id = sel then
                  ({ p with summaries :=
                      ({ summary := processed, timestamp := ts } : SummaryRecord) :: p.summaries } : Patient)
                else p) = p' := hmap
              by_cases hp : p.id = sel
              · right
                exact ⟨{ summary := processed, timestamp := ts }, by rw [← hmap', if_pos hp]⟩
              · left
                rw [← hmap', if_neg hp]
            | none =>
              rw [show ({ st with error := none } : AppState).selectedPatientId
                    = st.selectedPatientId from rfl, hselid] at h2
              have hcons : findPatient
                  (({ id := newId, name := jsTrim st.newPatientName, dob := "", nhsNumber := ""
                      summaries := [{ summary := processed, timestamp := ts }] } : Patient)
                    :: st.patients) pid = some p' := h2
              obtain ⟨hmem, hpid⟩ := findPatient_mem_id _ _ _ h1
              have hne : newId ≠ pid := by
                intro hcontra
                exact (hfresh p hmem) (by rw [hpid, hcontra])
              rw [findPatient_cons, if_neg hne, h1] at hcons
              injection hcons with hcons
              exact Or.inl (by rw [← hcons])

/-- Witness for C6: selecting a patient leaves its one-record history
untouched. -/
theorem summaries_append_only_witness :
    patientW.summaries = patientW.summaries
    ∨ ∃ r, patientW.summaries = r :: patientW.summaries :=
  summaries_append_only stW (Op.selectPatient "w1") "w1" patientW patientW
    trivial rfl rfl

/-- Claim C7 (confirmed): for every reachable patient list, the autosaved blob
restores to the very same list (save/load round-trip). -/
theorem save_load_roundtrip (ps : List Patient) (_hreach : ReachableStore ps) :
    load (StorageRead.parsed (Except.ok (savePatients ps))) = ps := by
  show (decodePatients (savePatients ps)).getD [] = ps
  rw [decodePatients_savePatients]
  rfl

/-- Witness for C7 at the reachable empty store. -/
theorem save_load_roundtrip_witness :
    load (StorageRead.parsed (Except.ok (savePatients []))) = [] :=
  save_load_roundtrip [] ⟨[], rfl⟩

/-- Claim C8 (confirmed): every failing storage read — access error, missing
key, falsy blob, or a blob `JSON.parse` rejects — restores the empty patient
list; the initializer is total, so no failure escapes it. -/
theorem load_fails_soft (r : StorageRead) (h : readFailed r = true) : load r = [] := by
  cases r with
  | accessError => rfl
  | absent => rfl
  | emptyString => rfl
  | parsed e =>
    cases e with
    | error u => rfl
    | ok j => cases h

/-- Witness for C8 at a missing persisted blob. -/
theorem load_fails_soft_witness :
    readFailed StorageRead.absent = true ∧ load StorageRead.absent = [] :=
  ⟨rfl, load_fails_soft StorageRead.absent rfl⟩

/-- Claim C9 (confirmed): view selection is derived and always safe —
selecting a patient resets the viewed index to 0, changing the viewed index
leaves the stored patients untouched, a non-null displayed summary always
resolves to an existing record of the selected patient at the viewed index,
and deleting or clearing the currently selected patient clears the selection
in the same operation. -/
theorem view_selection_safe (st : AppState) (pid : String) (i : Nat) :
    (handleSelectPatient st pid).viewingSummaryIndex = 0
    ∧ (applyOp (Op.setViewIndex i) st).patients = st.patients
    ∧ (∀ r, currentSummary st = some r →
        ∃ p, selectedPatient st = some p
          ∧ p.summaries.get? st.viewingSummaryIndex = some r)
    ∧ (st.selectedPatientId = some pid →
        (handleDeletePatientConfirmed st pid).selectedPatientId = none)
    ∧ (handleClearAllData st).selectedPatientId = none := by
  refine ⟨rfl, rfl, ?_, ?_, rfl⟩
  · intro r hr
    unfold currentSummary at hr
    cases hsel : selectedPatient st with
    | none => rw [hsel] at hr; cases hr
    | some p =>
      rw [hsel] at hr
      exact ⟨p, rfl, hr⟩
  · intro hc
    unfold handleDeletePatientConfirmed
    rw [if_pos (show ({ st with patients := st.patients.filter fun p => !(p.id == pid) }
        : AppState).selectedPatientId = some pid from hc)]

/-- Validity of the selection: when a patient id is selected it denotes a
patient present in the store.  `handleSelectPatient` only receives ids of
rendered patients and `handleDeletePatient` clears a dangling selection, so
every state the application reaches satisfies this. -/
def selectionValid (st : AppState) : Prop :=
  match st.selectedPatientId with
  | none => True
  | some pid => ∃ p, findPatient st.patients pid = some p

/-- Patient fixture for the C1 counterexample: Jane with no prior summary. -/
def janeC1 : Patient :=
  { id := "p1", name := "Jane Doe", dob := "", nhsNumber := "", summaries := [] }

/-- State fixture for the C1 counterexample and the C1 witness. -/
def stC1 : AppState :=
  { patients := [janeC1], selectedPatientId := some "p1", viewingSummaryIndex := 0
    newPatientName := "", prompt := "cough, fever", files := [], error := none }

/-- A parsed response that lacks the schema-required field
`Past medical history`. -/
def respMissingPmh : RawObj :=
  [("Acute Issues", Json.arr [Json.str "Fever"]),
   (PENDING_KEY, Json.arr [Json.str "Review bloods"])]

/-- Counterexample to claim C1 as stated: the service response lacks the
schema-required field `Past medical history`, yet the submission succeeds —
no user-facing error is reported and the record is persisted, growing the
summary history of the target patient from 0 to 1. -/
theorem submit_missing_field_persists :
    getField respMissingPmh "Past medical history" = none
    ∧ (handleSubmit stC1 "p9" "2024-01-01T00:00:00.000Z"
        (ServiceOutcome.parsed respMissingPmh)).error = none
    ∧ ((findPatient (handleSubmit stC1 "p9" "2024-01-01T00:00:00.000Z"
          (ServiceOutcome.parsed respMissingPmh)).patients "p1").map
        fun p => p.summaries.length) = some 1
    ∧ janeC1.summaries.length = 0 :=
  ⟨rfl, rfl, rfl, rfl⟩

/-- Claim C1 (amended): once the input guards pass, a submission is a hard
failure — generic error reported, patient list untouched — exactly when the
service call throws or the post-processing block rejects the parsed object
(which happens only for a non-string pending-tasks item, never for a missing
field); any response the post-processing accepts is committed with no error,
prepending one record to the history of the target patient. -/
theorem submit_failure_characterization
    (st : AppState) (newId ts : String) (o : RawObj)
    (hg1 : ¬(jsTrim st.prompt = "" ∧ st.files = []))
    (hg2 : ¬(st.selectedPatientId = none ∧ jsTrim st.newPatientName = ""))
    (hsel : selectionValid st) :
    ((handleSubmit st newId ts ServiceOutcome.thrown).patients = st.patients
      ∧ (handleSubmit st newId ts ServiceOutcome.thrown).error = some genericError)
    ∧ (processResponse o = none →
        (handleSubmit st newId ts (ServiceOutcome.parsed o)).patients = st.patients
        ∧ (handleSubmit st newId ts (ServiceOutcome.parsed o)).error = some genericError)
    ∧ (∀ pr, processResponse o = some pr →
        (handleSubmit st newId ts (ServiceOutcome.parsed o)).error = none
        ∧ targetSummaries (handleSubmit st newId ts (ServiceOutcome.parsed o))
            = ({ summary := pr, timestamp := ts } : SummaryRecord) :: targetSummaries st) := by
  refine ⟨?_, ?_, ?_⟩
  · unfold handleSubmit
    rw [if_neg hg1, if_neg hg2]
    exact ⟨rfl, rfl⟩
  · intro hnone
    unfold handleSubmit
    rw [if_neg hg1, if_neg hg2]
    simp only [commitResponse]
    rw [hnone]
    exact ⟨rfl, rfl⟩
  · intro pr hpr
    unfold handleSubmit
    rw [if_neg hg1, if_neg hg2]
    simp only [commitResponse]
    rw [hpr]
    cases hselid : st.selectedPatientId with
    | some sel =>
      have hsel' : ∃ p, findPatient st.patients sel = some p := by
        have hcopy := hsel
        unfold selectionValid at hcopy
        rw [hselid] at hcopy
        exact hcopy
      obtain ⟨p0, hp0⟩ := hsel'
      have hid0 : p0.id = sel := (findPatient_mem_id _ _ _ hp0).2
      refine ⟨rfl, ?_⟩
      have hfp := findPatient_map
        (fun p : Patient => if p.id = sel then
            { p with summaries :=
                ({ summary := pr, timestamp := ts } : SummaryRecord) :: p.summaries }
          else p)
        (fun q => by by_cases hq : q.id = sel <;> simp [hq]) st.patients sel
      simp [targetSummaries, selectedPatient, hselid, hfp, hp0, hid0]
    | none =>
      refine ⟨rfl, ?_⟩
      have hfind : findPatient
          (({ id := newId, name := jsTrim st.newPatientName, dob := "", nhsNumber := ""
              summaries := [{ summary := pr, timestamp := ts }] } : Patient)
            :: st.patients) newId
          = some { id := newId, name := jsTrim st.newPatientName, dob := "", nhsNumber := ""
                   summaries := [{ summary := pr, timestamp := ts }] } := by
        rw [findPatient_cons, if_pos rfl]
      simp [targetSummaries, selectedPatient, hselid, hfind]

/-- Witness for the amended C1 at a concrete selected patient and a concrete
accepted response (the one missing `Past medical history`). -/
theorem submit_failure_characterization_witness :
    ((handleSubmit stC1 "p9" "ts" ServiceOutcome.thrown).patients = stC1.patients
      ∧ (handleSubmit stC1 "p9" "ts" ServiceOutcome.thrown).error = some genericError)
    ∧ (processResponse respMissingPmh = none →
        (handleSubmit stC1 "p9" "ts" (ServiceOutcome.parsed respMissingPmh)).patients
            = stC1.patients
        ∧ (handleSubmit stC1 "p9" "ts" (ServiceOutcome.parsed respMissingPmh)).error
            = some genericError)
    ∧ (∀ pr, processResponse respMissingPmh = some pr →
        (handleSubmit stC1 "p9" "ts" (ServiceOutcome.parsed respMissingPmh)).error = none
        ∧ targetSummaries (handleSubmit stC1 "p9" "ts" (ServiceOutcome.parsed respMissingPmh))
            = ({ summary := pr, timestamp := "ts" } : SummaryRecord)
                :: targetSummaries stC1) :=
  submit_failure_characterization stC1 "p9" "ts" respMissingPmh
    (by decide) (by decide) ⟨janeC1, rfl⟩

/-- Patient fixture for the C10 counterexample. -/
def bobC10 : Patient :=
  { id := "b1", name := "Bob", dob := "", nhsNumber := "", summaries := [] }

/-- State fixture for the C10 counterexample. -/
def stC10 : AppState :=
  { patients := [bobC10], selectedPatientId := some "b1", viewingSummaryIndex := 0
    newPatientName := "", prompt := "fever", files := [], error := none }

/-- A parsed response whose pending-tasks array contains a non-string item. -/
def respBadPending : RawObj :=
  [("Acute Issues", Json.arr [Json.str "Fever"]),
   (PENDING_KEY, Json.arr [Json.num 5]),
   ("Past medical history", Json.arr [Json.str "Asthma"])]

/-- Counterexample to claim C10 as stated: the post-processing is not total
over arbitrary parsed responses — a pending-tasks array holding the number 5
makes `item.toLowerCase()` throw, so the submission fails with the generic
error and nothing is persisted, instead of being silently repaired. -/
theorem postprocess_not_total :
    processResponse respBadPending = none
    ∧ (handleSubmit stC10 "b9" "ts2" (ServiceOutcome.parsed respBadPending)).error
        = some genericError
    ∧ (handleSubmit stC10 "b9" "ts2" (ServiceOutcome.parsed respBadPending)).patients
        = stC10.patients :=
  ⟨rfl, rfl, rfl⟩

/-- Claim C10 (amended): the repair step replaces only an absent or non-array
pending-tasks field with the empty list; post-processing rejects a parsed
object exactly when its pending-tasks field is an array containing a
non-string; and every response it accepts — including one missing other
schema-required fields — carries a pending-tasks field that is a string
array whose last element is the fixed safety-netting sentence. -/
theorem postprocess_repair_and_shape (o : RawObj) :
    ((∀ js, getField o PENDING_KEY ≠ some (Json.arr js)) →
        repairPending (getField o PENDING_KEY) = [])
    ∧ (processResponse o = none ↔
        ∃ js, getField o PENDING_KEY = some (Json.arr js)
          ∧ ∃ j ∈ js, isStrJson j = false)
    ∧ (∀ r, processResponse o = some r →
        ∃ ss : List String,
          getField r PENDING_KEY
            = some (Json.arr ((ss ++ [SAFETY_NETTING_ADVICE]).map Json.str))) := by
  refine ⟨?_, ?_, ?_⟩
  · intro h
    cases hf : getField o PENDING_KEY with
    | none => rfl
    | some j =>
      cases j with
      | arr xs => exact absurd hf (h xs)
      | null => rfl
      | bool b => rfl
      | num n => rfl
      | str s => rfl
      | obj fs => rfl
  · have hnone : processResponse o = none ↔
        filterTriggers (repairPending (getField o PENDING_KEY)) = none := by
      unfold processResponse
      cases hft : filterTriggers (repairPending (getField o PENDING_KEY)) <;> simp
    rw [hnone, filterTriggers_none_iff]
    cases hf : getField o PENDING_KEY with
    | none =>
      simp only [repairPending]
      constructor
      · rintro ⟨j, hj, _⟩
        cases hj
      · rintro ⟨js, hjs, _⟩
        cases hjs
    | some j =>
      cases j with
      | arr xs =>
        simp only [repairPending]
        constructor
        · rintro ⟨j, hj, hns⟩
          exact ⟨xs, rfl, j, hj, hns⟩
        · rintro ⟨js, hjs, j, hj, hns⟩
          injection hjs with hjs
          cases hjs
          exact ⟨j, hj, hns⟩
      | null =>
        simp only [repairPending]
        constructor
        · rintro ⟨j, hj, _⟩
          cases hj
        · rintro ⟨js, hjs, _⟩
          injection hjs with hjs
          cases hjs
      | bool b =>
        simp only [repairPending]
        constructor
        · rintro ⟨j, hj, _⟩
          cases hj
        · rintro ⟨js, hjs, _⟩
          injection hjs with hjs
          cases hjs
      | num n =>
        simp only [repairPending]
        constructor
        · rintro ⟨j, hj, _⟩
          cases hj
        · rintro ⟨js, hjs, _⟩
          injection hjs with hjs
          cases hjs
      | str s =>
        simp only [repairPending]
        constructor
        · rintro ⟨j, hj, _⟩
          cases hj
        · rintro ⟨js, hjs, _⟩
          injection hjs with hjs
          cases hjs
      | obj fs =>
        simp only [repairPending]
        constructor
        · rintro ⟨j, hj, _⟩
          cases hj
        · rintro ⟨js, hjs, _⟩
          injection hjs with hjs
          cases hjs
  · intro r h
    unfold processResponse at h
    cases hft : filterTriggers (repairPending (getField o PENDING_KEY)) with
    | none => rw [hft] at h; cases h
    | some kept =>
      rw [hft] at h
      injection h with h
      obtain ⟨ss, hss, _⟩ := filterTriggers_shape _ _ hft
      refine ⟨ss, ?_⟩
      rw [← h, getField_setField, hss, List.map_append]
      rfl

/-- Witness for the amended C10 at the response missing the pending-tasks
field entirely: the repair yields the empty list and the accepted result ends
with the safety-netting sentence. -/
theorem postprocess_repair_and_shape_witness :
    (repairPending (getField [("Acute Issues", Json.arr [Json.str "Fever"])] PENDING_KEY) = [])
    ∧ ∃ ss : List String,
        getField (setField [("Acute Issues", Json.arr [Json.str "Fever"])] PENDING_KEY
            (Json.arr [Json.str SAFETY_NETTING_ADVICE])) PENDING_KEY
          = some (Json.arr ((ss ++ [SAFETY_NETTING_ADVICE]).map Json.str)) :=
  ⟨(postprocess_repair_and_shape [("Acute Issues", Json.arr [Json.str "Fever"])]).1
      (fun js h => by cases h),
   (postprocess_repair_and_shape [("Acute Issues", Json.arr [Json.str "Fever"])]).2.2
      (setField [("Acute Issues", Json.arr [Json.str "Fever"])] PENDING_KEY
        (Json.arr [Json.str SAFETY_NETTING_ADVICE])) rfl⟩

/-- A state with `patientW` selected and its record viewed, used by the C9
witness. -/
def stView : AppState :=
  { patients := [patientW], selectedPatientId := some "w1", viewingSummaryIndex := 0
    newPatientName := "", prompt := "", files := [], error := none }

/-- Witness for C9 at a concrete selected patient: deleting it clears the
selection, and its displayed record resolves to an existing one. -/
theorem view_selection_safe_witness :
    (handleDeletePatientConfirmed stView "w1").selectedPatientId = none
    ∧ ∃ p, selectedPatient stView = some p
        ∧ p.summaries.get? stView.viewingSummaryIndex = some recW :=
  ⟨(view_selection_safe stView "w1" 0).2.2.2.1 rfl,
   (view_selection_safe stView "w1" 0).2.2.1 recW rfl⟩

end HxSummariser
